import Mathlib

/-!
Verification development for the `digi-ai-studio` service core
(`services/geminiService.ts`): the exponential-backoff retry executor
`withExponentialBackoff`, the result extraction of `generateImageGemini`
and `editImageGemini`, and the context construction of
`sendChatMessageGemini`.

The embedding is shallow: the asynchronous operation becomes a function
from the zero-based invocation index to an `Except` outcome, and the
executor returns, besides the final outcome, the count of invocations it
performed and the list of delays (in milliseconds) it waited between
attempts, in order.
-/

namespace DigiAI

/-- A JavaScript error value, as inspected by `withExponentialBackoff`:
an optional numeric `status` field and an optional `message` string
(both may be absent on an arbitrary thrown value). -/
structure JsError where
  status : Option Int
  message : Option String
deriving DecidableEq, Repr

/-- Mirrors JavaScript `String.prototype.includes` on character lists:
`true` iff `pat` occurs as a contiguous run inside the list. -/
def charListIncludes (pat : List Char) : List Char → Bool
  | [] => pat.isEmpty
  | c :: cs => pat.isPrefixOf (c :: cs) || charListIncludes pat cs

/-- JavaScript `s.includes(pat)` on Lean strings. -/
def stringIncludes (s pat : String) : Bool :=
  charListIncludes pat.data s.data

/-- The retriability classification of `withExponentialBackoff`
(geminiService.ts lines 18-20):
`(error.status === 429) || (error.message?.includes("Requested entity was not found.")) || (error.status === 403)`.
The optional chaining `message?.includes` yields `undefined` (falsy) when
`message` is absent, embedded by `Option.getD false`. -/
def isRetriableError (e : JsError) : Bool :=
  (e.status == some 429) ||
  ((e.message.map (fun m => stringIncludes m "Requested entity was not found.")).getD false) ||
  (e.status == some 403)

/-- Final outcome of a `withExponentialBackoff` run: a success value, the
error thrown by the operation and re-thrown by line 23, or the defensive
`Error("Maximum retry attempts reached.")` thrown at line 30 after the
loop exits. -/
inductive BackoffOutcome (α : Type) where
  | success : α → BackoffOutcome α
  | opError : JsError → BackoffOutcome α
  | maxAttemptsReached : BackoffOutcome α
deriving DecidableEq, Repr

/-- Observable trace of one `withExponentialBackoff` run: the outcome,
how many times the operation was invoked, and the delays (ms) waited
between attempts, in order. -/
structure BackoffTrace (α : Type) where
  outcome : BackoffOutcome α
  invocations : Nat
  delays : List Nat
deriving DecidableEq, Repr

/-- Body of the `for` loop of `withExponentialBackoff`
(geminiService.ts lines 13-29), starting at loop index `i` with current
delay `delay`. `fn j` is the outcome of the `(j+1)`-th invocation of the
wrapped operation. The loop runs while `i < attempts`; on success it
returns; on error it re-throws when `i === attempts - 1` or the error is
not retriable, and otherwise waits `delay`, doubles it, and continues. -/
def backoffGo (fn : Nat → Except JsError α) (attempts : Int) (delay : Nat) (i : Nat) :
    BackoffTrace α :=
  if _h : (i : Int) < attempts then
    match fn i with
    | Except.ok v => ⟨BackoffOutcome.success v, 1, []⟩
    | Except.error e =>
      if (i : Int) = attempts - 1 ∨ isRetriableError e = false then
        ⟨BackoffOutcome.opError e, 1, []⟩
      else
        let rest := backoffGo fn attempts (delay * 2) (i + 1)
        ⟨rest.outcome, rest.invocations + 1, delay :: rest.delays⟩
  else
    ⟨BackoffOutcome.maxAttemptsReached, 0, []⟩
termination_by (attempts - i).toNat
decreasing_by
  simp_wf
  omega

/-- `withExponentialBackoff(fn, attempts = 3, delay = 1000)`
(geminiService.ts lines 12-31), with the default arguments of the source. -/
def withExponentialBackoff (fn : Nat → Except JsError α)
    (attempts : Int := 3) (delay : Nat := 1000) : BackoffTrace α :=
  backoffGo fn attempts delay 0

/-- Stub operation that always fails with a bare HTTP 429 error. -/
def always429 : Nat → Except JsError Nat :=
  fun _ => Except.error ⟨some 429, none⟩

/-- Stub operation that always fails with a bare HTTP 500 error
(not retriable under `isRetriableError`). -/
def always500 : Nat → Except JsError Nat :=
  fun _ => Except.error ⟨some 500, none⟩

/-- Stub operation that fails retriably on the first two invocations and
succeeds with `42` on the third. -/
def failTwiceThenOk : Nat → Except JsError Nat :=
  fun i => if i < 2 then Except.error ⟨some 429, none⟩ else Except.ok 42

/-- Statement of the retriability classification of the spec in its own words
(spec sections 4.1 and 7): retriable iff the error carries a "too many
requests" status code (429), or a "forbidden/permission" status code
(403), or a message indicating the referenced remote entity was not
found. Stated independently of `isRetriableError` to compare the two. -/
def retriablePerSpec (e : JsError) : Prop :=
  e.status = some 429 ∨ e.status = some 403 ∨
    ∃ m, e.message = some m ∧
      stringIncludes m "Requested entity was not found." = true

/-- An inline-data block of a response content part: a declared MIME type
and base64 payload. -/
structure InlineData where
  mimeType : String
  data : String
deriving DecidableEq, Repr

/-- One content part of a generate-content response: optional text,
optional inline data. -/
structure Part where
  text : Option String
  inlineData : Option InlineData
deriving DecidableEq, Repr

/-- The `content` object of a response candidate; its `parts` array may
be absent. -/
structure Content where
  parts : Option (List Part)
deriving DecidableEq, Repr

/-- One candidate of a generate-content response; its `content` may be
absent. -/
structure Candidate where
  content : Option Content
deriving DecidableEq, Repr

/-- A `GenerateContentResponse`: an optional candidates array (scanned by
`editImageGemini`) and the `text` accessor (read by
`sendChatMessageGemini`). -/
structure GenContentResponse where
  candidates : Option (List Candidate)
  text : Option String
deriving DecidableEq, Repr

/-- The parts iterated by `editImageGemini` (geminiService.ts line 107):
`response.candidates?.[0]?.content?.parts || []`. Optional chaining
collapses any missing link to `undefined`, and `|| []` then substitutes
the empty array. -/
def responseParts (r : GenContentResponse) : List Part :=
  match r.candidates with
  | none => []
  | some cs =>
    match cs.head? with
    | none => []
    | some c =>
      match c.content with
      | none => []
      | some ct => ct.parts.getD []

/-- The `for`/`if` scan of `editImageGemini` (lines 107-112): return the
first part carrying `inlineData`, encoded as a data URI with the MIME
type hard-coded to `image/png`, else `undefined`. -/
def editImageScan : List Part → Option String
  | [] => none
  | p :: rest =>
    match p.inlineData with
    | some d => some ("data:image/png;base64," ++ d.data)
    | none => editImageScan rest

/-- Result extraction of `editImageGemini` on a successful remote
response (lines 107-112). -/
def editImageExtract (r : GenContentResponse) : Option String :=
  editImageScan (responseParts r)

/-- Evaluating a JavaScript expression either yields a value or throws a
TypeError. -/
inductive JsResult (α : Type) where
  | ok : α → JsResult α
  | typeError : JsResult α
deriving DecidableEq, Repr

/-- The `image` object of a generated image; `imageBytes` may be absent. -/
structure ImageObj where
  imageBytes : Option String
deriving DecidableEq, Repr

/-- One element of `generatedImages`; its `image` object may be absent. -/
structure GeneratedImage where
  image : Option ImageObj
deriving DecidableEq, Repr

/-- A `generateImages` response: the `generatedImages` array may be
absent. -/
structure GenImagesResponse where
  generatedImages : Option (List GeneratedImage)
deriving DecidableEq, Repr

/-- Result extraction of `generateImageGemini` (lines 62-65) under
JavaScript evaluation order. The guard tests `response.generatedImages`,
`generatedImages[0]` and `generatedImages[0].image.imageBytes` for
truthiness (`undefined` and `""` are falsy), but the `.image` access is
unguarded: when `generatedImages[0]` exists with `image` absent,
evaluating `generatedImages[0].image.imageBytes` throws a TypeError. -/
def generateImageExtract (r : GenImagesResponse) : JsResult (Option String) :=
  match r.generatedImages with
  | none => JsResult.ok none
  | some gis =>
    match gis.head? with
    | none => JsResult.ok none
    | some gi =>
      match gi.image with
      | none => JsResult.typeError
      | some img =>
        match img.imageBytes with
        | none => JsResult.ok none
        | some b =>
          if b = "" then JsResult.ok none
          else JsResult.ok (some ("data:image/png;base64," ++ b))

/-- The `role` union of the chat API: user or model. -/
inductive Role where
  | user
  | model
deriving DecidableEq, Repr

/-- A caller-side chat turn (`ChatMessage`, geminiService.ts
lines 123-126). -/
structure ChatMessage where
  role : Role
  text : String
deriving DecidableEq, Repr

/-- One transcript entry handed to `ai.chats.create`: a role and a
`parts` array of texts. -/
structure HistoryEntry where
  role : Role
  parts : List String
deriving DecidableEq, Repr

/-- The fixed persona system instruction of `sendChatMessageGemini`
(line 148). -/
def personaInstruction : String :=
  "You are \x27Digi AI Assistant\x27, a highly professional, mannerful, and helpful problem-solving AI. Your goal is to provide clear, effective, and supportive solutions to user problems. Maintain a warm, encouraging, and sophisticated tone, similar to a premium consultant or mentor."

/-- The chat session configuration passed to `ai.chats.create`
(lines 144-156): model name, system-instruction parts, and the seeded
transcript. -/
structure ChatSession where
  model : String
  systemInstructionParts : List String
  history : List HistoryEntry
deriving DecidableEq, Repr

/-- The `ai.chats.create` call of `sendChatMessageGemini`
(lines 144-156): fixed model and persona instruction, and the history
array mapped entry-wise with
`role: msg.role === "user" ? "user" : "model"` (an identity on this two-valued type) and
`parts: [{ text: msg.text }]`. -/
def createChat (history : List ChatMessage) : ChatSession :=
  { model := "gemini-2.5-flash",
    systemInstructionParts := [personaInstruction],
    history := history.map fun msg =>
      { role := if msg.role = Role.user then Role.user else Role.model,
        parts := [msg.text] } }

/-- `sendChatMessageGemini` (lines 139-165) against a remote boundary
`send` standing for `chat.sendMessage` of the external library: create
the chat session from the caller-supplied history, send `newMessage`,
and return `response.text`. -/
def sendChatMessageGemini (send : ChatSession → String → GenContentResponse)
    (history : List ChatMessage) (newMessage : String) : Option String :=
  (send (createChat history) newMessage).text

/-- Modelled from the spec: the external chat library object manages the
session transcript and "appends `newMessage` as a new user turn and
requests a reply" (spec section 4.4); that append is library behaviour
not present in the sources of the repository. -/
def chatRequestTurns (history : List ChatMessage) (newMessage : String) :
    List HistoryEntry :=
  (createChat history).history ++ [⟨Role.user, [newMessage]⟩]

/-- Unfolding: when the loop guard `i < attempts` fails, the loop exits and
line 30 throws the defensive error. -/
theorem backoffGo_stop (fn : Nat → Except JsError α) (attempts : Int) (d i : Nat)
    (h : ¬ (i : Int) < attempts) :
    backoffGo fn attempts d i = ⟨BackoffOutcome.maxAttemptsReached, 0, []⟩ := by
  rw [backoffGo, dif_neg h]

/-- Unfolding: a successful invocation returns immediately. -/
theorem backoffGo_ok (fn : Nat → Except JsError α) (attempts : Int) (d i : Nat) (v : α)
    (h : (i : Int) < attempts) (hfn : fn i = Except.ok v) :
    backoffGo fn attempts d i = ⟨BackoffOutcome.success v, 1, []⟩ := by
  rw [backoffGo, dif_pos h, hfn]

/-- Unfolding: on the last attempt, or on a non-retriable error, the error
is re-thrown unchanged. -/
theorem backoffGo_throw (fn : Nat → Except JsError α) (attempts : Int) (d i : Nat) (e : JsError)
    (h : (i : Int) < attempts) (hfn : fn i = Except.error e)
    (hc : (i : Int) = attempts - 1 ∨ isRetriableError e = false) :
    backoffGo fn attempts d i = ⟨BackoffOutcome.opError e, 1, []⟩ := by
  rw [backoffGo, dif_pos h, hfn]
  simp only [hc, if_true]

/-- Unfolding: on a retriable error before the last attempt, the executor
waits `d`, doubles the delay, and continues at `i + 1`. -/
theorem backoffGo_retry (fn : Nat → Except JsError α) (attempts : Int) (d i : Nat) (e : JsError)
    (h : (i : Int) < attempts) (hfn : fn i = Except.error e)
    (hc : ¬((i : Int) = attempts - 1 ∨ isRetriableError e = false)) :
    backoffGo fn attempts d i =
      ⟨(backoffGo fn attempts (d * 2) (i + 1)).outcome,
       (backoffGo fn attempts (d * 2) (i + 1)).invocations + 1,
       d :: (backoffGo fn attempts (d * 2) (i + 1)).delays⟩ := by
  rw [backoffGo, dif_pos h, hfn]
  simp only [hc, if_false, reduceIte]

/-- Loop invariant for an operation that fails retriably on every
invocation: from index `i`, the loop performs the remaining
`attempts.toNat - i` invocations, waits the geometric delays
`d, d*2, d*4, ...` between them, and finally re-throws the error of the
last invocation (index `attempts.toNat - 1`). -/
theorem backoffGo_allRetriable (fn : Nat → Except JsError α) (attempts : Int)
    (hfail : ∀ j, ∃ e, fn j = Except.error e ∧ isRetriableError e = true) :
    ∀ (m i d : Nat), attempts.toNat - 1 - i = m → (i : Int) < attempts →
    ∃ e, fn (attempts.toNat - 1) = Except.error e ∧
      backoffGo fn attempts d i =
        ⟨BackoffOutcome.opError e, attempts.toNat - i,
         (List.range m).map (fun k => d * 2 ^ k)⟩ := by
  intro m
  induction m with
  | zero =>
    intro i d hm hi
    have hIdx : i = attempts.toNat - 1 := by omega
    obtain ⟨e, he, hr⟩ := hfail i
    refine ⟨e, by rw [← hIdx]; exact he, ?_⟩
    rw [backoffGo_throw fn attempts d i e hi he (Or.inl (by omega))]
    have h1 : attempts.toNat - i = 1 := by omega
    rw [h1]
    simp
  | succ m ih =>
    intro i d hm hi
    obtain ⟨e, he, hr⟩ := hfail i
    have hc : ¬((i : Int) = attempts - 1 ∨ isRetriableError e = false) := by
      push_neg
      exact ⟨by omega, by simp [hr]⟩
    rw [backoffGo_retry fn attempts d i e hi he hc]
    obtain ⟨e2, he2, hrec⟩ := ih (i + 1) (d * 2) (by omega) (by omega)
    refine ⟨e2, he2, ?_⟩
    rw [hrec]
    have hinv : attempts.toNat - (i + 1) + 1 = attempts.toNat - i := by omega
    have hdl : d :: (List.range m).map (fun k => d * 2 * 2 ^ k) =
        (List.range (m + 1)).map (fun k => d * 2 ^ k) := by
      rw [List.range_succ_eq_map, List.map_cons, List.map_map]
      simp only [pow_zero, mul_one]
      refine congrArg (List.cons d) (List.map_congr_left ?_)
      intro a _
      simp only [Function.comp_apply, pow_succ]
      ring
    rw [hinv, hdl]

/-- Loop invariant: while the guard holds, the loop always resolves to a
success or a re-thrown operation error — the defensive error of line 30 is
unreachable from inside the loop. -/
theorem backoffGo_ne_max (fn : Nat → Except JsError α) (attempts : Int) :
    ∀ (m i d : Nat), (attempts - i).toNat = m → (i : Int) < attempts →
      (backoffGo fn attempts d i).outcome ≠ BackoffOutcome.maxAttemptsReached := by
  intro m
  induction m with
  | zero =>
    intro i d hm hi
    exact absurd hm (by omega)
  | succ m ih =>
    intro i d hm hi
    cases hfn : fn i with
    | ok v =>
      rw [backoffGo_ok fn attempts d i v hi hfn]
      simp
    | error e =>
      by_cases hc : (i : Int) = attempts - 1 ∨ isRetriableError e = false
      · rw [backoffGo_throw fn attempts d i e hi hfn hc]
        simp
      · rw [backoffGo_retry fn attempts d i e hi hfn hc]
        push_neg at hc
        exact ih (i + 1) (d * 2) (by omega) (by omega)

/-- Loop invariant for an operation that succeeds on its `k`-th
invocation after `k - 1` retriable failures: from index `i ≤ k - 1`, the
loop performs `k - i` more invocations and returns the success value. -/
theorem backoffGo_succeeds (fn : Nat → Except JsError α) (attempts : Int) (k : Nat) (v : α)
    (hk1 : 1 ≤ k) (hk2 : (k : Int) ≤ attempts)
    (hfails : ∀ i, i < k - 1 → ∃ e, fn i = Except.error e ∧ isRetriableError e = true)
    (hsucc : fn (k - 1) = Except.ok v) :
    ∀ (m i d : Nat), k - 1 - i = m → i ≤ k - 1 →
      (backoffGo fn attempts d i).outcome = BackoffOutcome.success v ∧
      (backoffGo fn attempts d i).invocations = k - i := by
  intro m
  induction m with
  | zero =>
    intro i d hm hi
    have hIdx : i = k - 1 := by omega
    subst hIdx
    have hlt0 : ((k - 1 : Nat) : Int) < attempts := by omega
    rw [backoffGo_ok fn attempts d (k - 1) v hlt0 hsucc]
    refine ⟨rfl, ?_⟩
    show 1 = k - (k - 1)
    omega
  | succ m ih =>
    intro i d hm hi
    have hik : i < k - 1 := by omega
    obtain ⟨e, he, hr⟩ := hfails i hik
    have hlt : (i : Int) < attempts := by omega
    have hc : ¬((i : Int) = attempts - 1 ∨ isRetriableError e = false) := by
      push_neg
      exact ⟨by omega, by simp [hr]⟩
    rw [backoffGo_retry fn attempts d i e hlt he hc]
    obtain ⟨ho, hn⟩ := ih (i + 1) (d * 2) (by omega) (by omega)
    refine ⟨ho, ?_⟩
    show (backoffGo fn attempts (d * 2) (i + 1)).invocations + 1 = k - i
    omega

/-- C1: for an operation that fails with a retriable error on every
attempt under policy (`attempts`, `delay`, multiplier 2),
`withExponentialBackoff` invokes the operation exactly `attempts` times,
the delay waited before the k-th retry (1 ≤ k ≤ attempts - 1) equals
`delay * 2 ^ (k - 1)`, and the defaults are 3 attempts and a 1000 ms
initial delay. -/
theorem withExponentialBackoff_allRetriable_trace (fn : Nat → Except JsError α)
    (attempts : Int) (delay : Nat) (hA : 1 ≤ attempts)
    (hfail : ∀ j, ∃ e, fn j = Except.error e ∧ isRetriableError e = true) :
    (withExponentialBackoff fn attempts delay).invocations = attempts.toNat ∧
    (∀ k, 1 ≤ k → k ≤ attempts.toNat - 1 →
      (withExponentialBackoff fn attempts delay).delays[k - 1]? =
        some (delay * 2 ^ (k - 1))) ∧
    withExponentialBackoff fn = backoffGo fn 3 1000 0 := by
  obtain ⟨e, he, htr⟩ :=
    backoffGo_allRetriable fn attempts hfail (attempts.toNat - 1 - 0) 0 delay rfl (by omega)
  unfold withExponentialBackoff
  rw [htr]
  refine ⟨?_, ?_, rfl⟩
  · show attempts.toNat - 0 = attempts.toNat
    omega
  · intro k hk1 hk2
    show ((List.range (attempts.toNat - 1 - 0)).map (fun j => delay * 2 ^ j))[k - 1]? =
      some (delay * 2 ^ (k - 1))
    rw [List.getElem?_map, List.getElem?_range (show k - 1 < attempts.toNat - 1 - 0 by omega)]
    rfl

/-- C1 witness: the always-429 stub under the default policy (3 attempts,
1000 ms) is invoked 3 times with delays 1000 ms and 2000 ms before the
two retries. -/
theorem withExponentialBackoff_allRetriable_trace_witness :
    (1 ≤ (3 : Int)) ∧
    (∀ j, ∃ e, always429 j = Except.error e ∧ isRetriableError e = true) ∧
    ((withExponentialBackoff always429 3 1000).invocations = (3 : Int).toNat ∧
      (∀ k, 1 ≤ k → k ≤ (3 : Int).toNat - 1 →
        (withExponentialBackoff always429 3 1000).delays[k - 1]? =
          some (1000 * 2 ^ (k - 1))) ∧
      withExponentialBackoff always429 = backoffGo always429 3 1000 0) :=
  ⟨by decide, fun j => ⟨⟨some 429, none⟩, rfl, by decide⟩,
    withExponentialBackoff_allRetriable_trace always429 3 1000 (by decide)
      (fun j => ⟨⟨some 429, none⟩, rfl, by decide⟩)⟩

/-- C3 counterexample: a stub that always fails with a retriable 429
error exhausts the default policy, yet `withExponentialBackoff` surfaces
the last error of the stub itself, not the distinct
`Error("Maximum retry attempts reached.")` of line 30. -/
theorem exhaustion_not_distinct_error_cex :
    (withExponentialBackoff always429 3 1000).invocations = 3 ∧
    (withExponentialBackoff always429 3 1000).outcome =
      BackoffOutcome.opError ⟨some 429, none⟩ ∧
    (withExponentialBackoff always429 3 1000).outcome ≠
      BackoffOutcome.maxAttemptsReached := by
  obtain ⟨e, he, htr⟩ :=
    backoffGo_allRetriable always429 3 (fun j => ⟨⟨some 429, none⟩, rfl, by decide⟩)
      ((3 : Int).toNat - 1 - 0) 0 1000 rfl (by decide)
  injection he with he'
  subst he'
  unfold withExponentialBackoff
  rw [htr]
  refine ⟨rfl, rfl, ?_⟩
  intro hcontra
  exact BackoffOutcome.noConfusion hcontra

/-- C3 amended: for an operation that fails with a retriable error on all
`attempts` attempts, `withExponentialBackoff` performs exactly `attempts`
invocations — never fewer, never more — and then surfaces the last error
of the operation itself (re-thrown by line 23 on the final attempt), not the
distinct "Maximum retry attempts reached." error, which stays
unreachable here. -/
theorem exhaustion_surfaces_last_op_error (fn : Nat → Except JsError α)
    (attempts : Int) (delay : Nat) (hA : 1 ≤ attempts)
    (hfail : ∀ j, ∃ e, fn j = Except.error e ∧ isRetriableError e = true) :
    ∃ e, fn (attempts.toNat - 1) = Except.error e ∧
      (withExponentialBackoff fn attempts delay).outcome = BackoffOutcome.opError e ∧
      (withExponentialBackoff fn attempts delay).outcome ≠
        BackoffOutcome.maxAttemptsReached ∧
      (withExponentialBackoff fn attempts delay).invocations = attempts.toNat := by
  obtain ⟨e, he, htr⟩ :=
    backoffGo_allRetriable fn attempts hfail (attempts.toNat - 1 - 0) 0 delay rfl (by omega)
  refine ⟨e, he, ?_, ?_, ?_⟩
  · show (backoffGo fn attempts delay 0).outcome = BackoffOutcome.opError e
    rw [htr]
  · show (backoffGo fn attempts delay 0).outcome ≠ BackoffOutcome.maxAttemptsReached
    rw [htr]
    intro hcontra
    exact BackoffOutcome.noConfusion hcontra
  · show (backoffGo fn attempts delay 0).invocations = attempts.toNat
    rw [htr]
    show attempts.toNat - 0 = attempts.toNat
    omega

/-- C3 amended witness: the always-429 stub under the default policy. -/
theorem exhaustion_surfaces_last_op_error_witness :
    (1 ≤ (3 : Int)) ∧
    (∀ j, ∃ e, always429 j = Except.error e ∧ isRetriableError e = true) ∧
    (∃ e, always429 ((3 : Int).toNat - 1) = Except.error e ∧
      (withExponentialBackoff always429 3 1000).outcome = BackoffOutcome.opError e ∧
      (withExponentialBackoff always429 3 1000).outcome ≠
        BackoffOutcome.maxAttemptsReached ∧
      (withExponentialBackoff always429 3 1000).invocations = (3 : Int).toNat) :=
  ⟨by decide, fun j => ⟨⟨some 429, none⟩, rfl, by decide⟩,
    exhaustion_surfaces_last_op_error always429 3 1000 (by decide)
      (fun j => ⟨⟨some 429, none⟩, rfl, by decide⟩)⟩

/-- C4: an operation whose first failure is non-retriable is invoked
exactly once; that same error value propagates unchanged, with no delay
waited and no further attempts. -/
theorem fatalError_single_attempt (fn : Nat → Except JsError α)
    (attempts : Int) (delay : Nat) (e : JsError) (hA : 1 ≤ attempts)
    (h0 : fn 0 = Except.error e) (hfatal : isRetriableError e = false) :
    withExponentialBackoff fn attempts delay = ⟨BackoffOutcome.opError e, 1, []⟩ := by
  unfold withExponentialBackoff
  exact backoffGo_throw fn attempts delay 0 e (by omega) h0 (Or.inr hfatal)

/-- C4 witness: a bare HTTP 500 error is fatal, so the always-500 stub is
invoked once under the default policy and its error propagates. -/
theorem fatalError_single_attempt_witness :
    (1 ≤ (3 : Int)) ∧
    always500 0 = Except.error ⟨some 500, none⟩ ∧
    isRetriableError ⟨some 500, none⟩ = false ∧
    withExponentialBackoff always500 3 1000 =
      ⟨BackoffOutcome.opError ⟨some 500, none⟩, 1, []⟩ :=
  ⟨by decide, rfl, by decide,
    fatalError_single_attempt always500 3 1000 ⟨some 500, none⟩ (by decide) rfl (by decide)⟩

/-- C5: an operation that succeeds on its k-th invocation
(1 ≤ k ≤ attempts) after k - 1 retriable failures makes
`withExponentialBackoff` return that success value after exactly k
invocations — no further attempts after the successful one. -/
theorem success_on_attempt_k (fn : Nat → Except JsError α)
    (attempts : Int) (delay : Nat) (k : Nat) (v : α)
    (hk1 : 1 ≤ k) (hk2 : (k : Int) ≤ attempts)
    (hfails : ∀ i, i < k - 1 → ∃ e, fn i = Except.error e ∧ isRetriableError e = true)
    (hsucc : fn (k - 1) = Except.ok v) :
    (withExponentialBackoff fn attempts delay).outcome = BackoffOutcome.success v ∧
    (withExponentialBackoff fn attempts delay).invocations = k := by
  obtain ⟨ho, hn⟩ :=
    backoffGo_succeeds fn attempts k v hk1 hk2 hfails hsucc (k - 1 - 0) 0 delay rfl (by omega)
  unfold withExponentialBackoff
  exact ⟨ho, by rw [hn]; omega⟩

/-- C5 witness: a stub failing retriably twice then succeeding with 42 is
invoked exactly 3 times under the default policy and its success value is
returned. -/
theorem success_on_attempt_k_witness :
    (1 ≤ 3) ∧ ((3 : Nat) : Int) ≤ (3 : Int) ∧
    (∀ i, i < 3 - 1 → ∃ e, failTwiceThenOk i = Except.error e ∧ isRetriableError e = true) ∧
    failTwiceThenOk (3 - 1) = Except.ok 42 ∧
    ((withExponentialBackoff failTwiceThenOk 3 1000).outcome = BackoffOutcome.success 42 ∧
      (withExponentialBackoff failTwiceThenOk 3 1000).invocations = 3) :=
  ⟨by decide, by decide,
    fun i hi => ⟨⟨some 429, none⟩, by simp [failTwiceThenOk, hi], by decide⟩,
    rfl,
    success_on_attempt_k failTwiceThenOk 3 1000 3 42 (by decide) (by decide)
      (fun i hi => ⟨⟨some 429, none⟩, by simp [failTwiceThenOk, hi], by decide⟩)
      rfl⟩

/-- C9: the defensive `Error("Maximum retry attempts reached.")` of
line 30 is produced exactly when `attempts ≤ 0` (the loop body never
runs, so the operation is never invoked); for every run it is the only
input shape producing that outcome. -/
theorem maxRetryError_iff_nonpositive_attempts (fn : Nat → Except JsError α)
    (attempts : Int) (delay : Nat) :
    (attempts ≤ 0 →
      withExponentialBackoff fn attempts delay =
        ⟨BackoffOutcome.maxAttemptsReached, 0, []⟩) ∧
    ((withExponentialBackoff fn attempts delay).outcome =
        BackoffOutcome.maxAttemptsReached → attempts ≤ 0) := by
  constructor
  · intro h
    unfold withExponentialBackoff
    exact backoffGo_stop fn attempts delay 0 (by omega)
  · intro h
    by_contra hpos
    push_neg at hpos
    exact backoffGo_ne_max fn attempts (attempts - (0 : Nat)).toNat 0 delay rfl
      (by omega) h

/-- C9 witness: with `attempts = 0` the stub is never invoked and the
defensive error is the outcome. -/
theorem maxRetryError_iff_nonpositive_attempts_witness :
    ((0 : Int) ≤ 0) ∧
    withExponentialBackoff always500 0 1000 =
      ⟨BackoffOutcome.maxAttemptsReached, 0, []⟩ :=
  ⟨by decide, (maxRetryError_iff_nonpositive_attempts always500 0 1000).1 (by decide)⟩

/-- C2: `isRetriableError` classifies an error as retriable exactly when
it carries status 429, or status 403, or a message containing
"Requested entity was not found."; every other error is fatal. -/
theorem isRetriableError_iff_spec (e : JsError) :
    isRetriableError e = true ↔ retriablePerSpec e := by
  cases e with
  | mk status message =>
    unfold isRetriableError retriablePerSpec
    cases message with
    | none =>
      simp only [Option.map_none, Option.getD_none, Bool.or_false, Bool.or_eq_true,
        beq_iff_eq]
      simp
    | some m =>
      simp only [Option.map_some, Option.getD_some, Bool.or_eq_true, beq_iff_eq]
      simp
      tauto

/-- C6: on every successful response, `editImageGemini` returns the first
content part carrying inline image data, as a data URI whose MIME type is
fixed to `image/png` regardless of the declared type of the part; when no part
carries inline data it returns `undefined` rather than an error. -/
theorem editImage_first_inline_part (r : GenContentResponse) :
    editImageExtract r =
      ((responseParts r).findSome? (fun p => p.inlineData)).map
        (fun d => "data:image/png;base64," ++ d.data) ∧
    ((∀ p ∈ responseParts r, p.inlineData = none) → editImageExtract r = none) := by
  have hscan : ∀ ps : List Part, editImageScan ps =
      (ps.findSome? (fun p => p.inlineData)).map
        (fun d => "data:image/png;base64," ++ d.data) := by
    intro ps
    induction ps with
    | nil => rfl
    | cons p rest ih =>
      cases hp : p.inlineData with
      | none => simp [editImageScan, List.findSome?_cons, hp, ih]
      | some d => simp [editImageScan, List.findSome?_cons, hp]
  constructor
  · exact hscan (responseParts r)
  · intro hall
    unfold editImageExtract
    rw [hscan (responseParts r), List.findSome?_eq_none_iff.mpr hall]
    rfl

/-- C6 witness: a response whose only part is text yields `undefined`. -/
theorem editImage_first_inline_part_witness :
    (∀ p ∈ responseParts ⟨some [⟨some ⟨some [⟨some "hello", none⟩]⟩⟩], none⟩,
      p.inlineData = none) ∧
    editImageExtract ⟨some [⟨some ⟨some [⟨some "hello", none⟩]⟩⟩], none⟩ = none :=
  ⟨by decide,
    (editImage_first_inline_part ⟨some [⟨some ⟨some [⟨some "hello", none⟩]⟩⟩], none⟩).2
      (by decide)⟩

/-- C7: when the remote call of `generateImageGemini` succeeds but carries no
image data — no `generatedImages` array, an empty array, or a present
`image` object with missing or empty `imageBytes` — the extraction
returns `undefined` rather than throwing; when non-empty image bytes are
present it returns the `image/png` data URI over those bytes. -/
theorem generateImage_no_data_absent (r : GenImagesResponse) :
    (r.generatedImages = none → generateImageExtract r = JsResult.ok none) ∧
    (r.generatedImages = some [] → generateImageExtract r = JsResult.ok none) ∧
    (∀ gi rest img, r.generatedImages = some (gi :: rest) → gi.image = some img →
      (img.imageBytes = none ∨ img.imageBytes = some "") →
      generateImageExtract r = JsResult.ok none) ∧
    (∀ gi rest img b, r.generatedImages = some (gi :: rest) → gi.image = some img →
      img.imageBytes = some b → b ≠ "" →
      generateImageExtract r = JsResult.ok (some ("data:image/png;base64," ++ b))) := by
  refine ⟨?_, ?_, ?_, ?_⟩
  · intro h
    simp [generateImageExtract, h]
  · intro h
    simp [generateImageExtract, h]
  · intro gi rest img hg hi hb
    cases hb with
    | inl hnone => simp [generateImageExtract, hg, hi, hnone]
    | inr hempty => simp [generateImageExtract, hg, hi, hempty]
  · intro gi rest img b hg hi hb hne
    simp [generateImageExtract, hg, hi, hb, hne]

/-- C7 witness: a response with one generated image carrying bytes "abc"
yields the PNG data URI over those bytes. -/
theorem generateImage_no_data_absent_witness :
    (GenImagesResponse.mk (some [⟨some ⟨some "abc"⟩⟩])).generatedImages =
      some [⟨some ⟨some "abc"⟩⟩] ∧
    (GeneratedImage.mk (some ⟨some "abc"⟩)).image = some ⟨some "abc"⟩ ∧
    (ImageObj.mk (some "abc")).imageBytes = some "abc" ∧
    "abc" ≠ "" ∧
    generateImageExtract (GenImagesResponse.mk (some [⟨some ⟨some "abc"⟩⟩])) =
      JsResult.ok (some ("data:image/png;base64," ++ "abc")) :=
  ⟨rfl, rfl, rfl, by decide,
    (generateImage_no_data_absent (GenImagesResponse.mk (some [⟨some ⟨some "abc"⟩⟩]))).2.2.2
      ⟨some ⟨some "abc"⟩⟩ [] ⟨some "abc"⟩ "abc" rfl rfl rfl (by decide)⟩

/-- C8: `sendChatMessageGemini` seeds the remote context with exactly the
prior turns of the caller in order, each mapped to its role, plus the fixed
persona system instruction; the library appends the new message as a user
turn; and the remote reply text is returned verbatim, `undefined` when
the response carries no text. -/
theorem sendChatMessage_context_and_reply
    (send : ChatSession → String → GenContentResponse)
    (history : List ChatMessage) (newMessage : String) :
    (createChat history).history = history.map (fun m => ⟨m.role, [m.text]⟩) ∧
    (createChat history).systemInstructionParts = [personaInstruction] ∧
    chatRequestTurns history newMessage =
      history.map (fun m => ⟨m.role, [m.text]⟩) ++ [⟨Role.user, [newMessage]⟩] ∧
    sendChatMessageGemini send history newMessage =
      (send (createChat history) newMessage).text := by
  have hmap : (createChat history).history =
      history.map (fun m => ⟨m.role, [m.text]⟩) := by
    unfold createChat
    simp only
    refine List.map_congr_left ?_
    intro m _
    cases hm : m.role <;> simp [hm]
  refine ⟨hmap, rfl, ?_, rfl⟩
  unfold chatRequestTurns
  rw [hmap]

/-- C10: the guard of `generateImageGemini` (line 62) checks
`generatedImages`, its first element and `imageBytes`, but dereferences
`.image` unguarded: whenever `generatedImages[0]` exists with `image`
absent, the extraction throws a TypeError instead of returning
`undefined`. -/
theorem generateImage_missing_image_typeError (r : GenImagesResponse)
    (gi : GeneratedImage) (rest : List GeneratedImage)
    (hg : r.generatedImages = some (gi :: rest)) (hi : gi.image = none) :
    generateImageExtract r = JsResult.typeError := by
  simp [generateImageExtract, hg, hi]

/-- C10 witness: a response whose single generated image lacks the
`image` object makes the extraction throw. -/
theorem generateImage_missing_image_typeError_witness :
    (GenImagesResponse.mk (some [⟨none⟩])).generatedImages = some [⟨none⟩] ∧
    (GeneratedImage.mk none).image = none ∧
    generateImageExtract (GenImagesResponse.mk (some [⟨none⟩])) = JsResult.typeError :=
  ⟨rfl, rfl,
    generateImage_missing_image_typeError (GenImagesResponse.mk (some [⟨none⟩]))
      ⟨none⟩ [] rfl rfl⟩

end DigiAI
